import Mathlib

/-!
Shallow embedding of the makcu-cpp control plane (`src/makcu-cpp/src/makcu.cpp`)
and proofs about its command cache, baud handshake, drag sequences, argument
validation, lock-state cache, response parsing, string escaping, batch builder
and button-event handling.
-/

namespace Makcu

/-- `MouseButton` from `include/makcu.h`: LEFT=0, RIGHT=1, MIDDLE=2,
SIDE1=3, SIDE2=4, UNKNOWN=255. -/
inductive MouseButton where
  | left
  | right
  | middle
  | side1
  | side2
  | unknown
  deriving DecidableEq, Repr

/-- Underlying `uint8_t` value of the enum (`std::to_underlying`). -/
def MouseButton.idx : MouseButton → Nat
  | .left => 0
  | .right => 1
  | .middle => 2
  | .side1 => 3
  | .side2 => 4
  | .unknown => 255

/-- `Device::Impl::LockTarget`: X=0, Y=1, LEFT=2, RIGHT=3, MIDDLE=4,
SIDE1=5, SIDE2=6. -/
inductive LockTarget where
  | x
  | y
  | left
  | right
  | middle
  | side1
  | side2
  deriving DecidableEq, Repr

/-- Underlying `uint8_t` value of the lock-target enum. -/
def LockTarget.idx : LockTarget → Nat
  | .x => 0
  | .y => 1
  | .left => 2
  | .right => 3
  | .middle => 4
  | .side1 => 5
  | .side2 => 6

/-! ## CommandCache (makcu.cpp lines 107–170)

The constructor fills five fixed arrays of strings. We embed each array as a
function from the index as written in the constructor. -/

/-- `CommandCache::press_commands`, by MouseButton index 0..4. -/
def press_commands : Nat → Option String
  | 0 => some "km.left(1)"
  | 1 => some "km.right(1)"
  | 2 => some "km.middle(1)"
  | 3 => some "km.ms1(1)"
  | 4 => some "km.ms2(1)"
  | _ => none

/-- `CommandCache::release_commands`, by MouseButton index 0..4. -/
def release_commands : Nat → Option String
  | 0 => some "km.left(0)"
  | 1 => some "km.right(0)"
  | 2 => some "km.middle(0)"
  | 3 => some "km.ms1(0)"
  | 4 => some "km.ms2(0)"
  | _ => none

/-- `CommandCache::lock_commands`, by LockTarget index 0..6. -/
def lock_commands : Nat → Option String
  | 0 => some "km.lock_mx(1)"
  | 1 => some "km.lock_my(1)"
  | 2 => some "km.lock_ml(1)"
  | 3 => some "km.lock_mr(1)"
  | 4 => some "km.lock_mm(1)"
  | 5 => some "km.lock_ms1(1)"
  | 6 => some "km.lock_ms2(1)"
  | _ => none

/-- `CommandCache::unlock_commands`, by LockTarget index 0..6. -/
def unlock_commands : Nat → Option String
  | 0 => some "km.lock_mx(0)"
  | 1 => some "km.lock_my(0)"
  | 2 => some "km.lock_ml(0)"
  | 3 => some "km.lock_mr(0)"
  | 4 => some "km.lock_mm(0)"
  | 5 => some "km.lock_ms1(0)"
  | 6 => some "km.lock_ms2(0)"
  | _ => none

/-- `CommandCache::query_commands`, by LockTarget index 0..6. -/
def query_commands : Nat → Option String
  | 0 => some "km.lock_mx()"
  | 1 => some "km.lock_my()"
  | 2 => some "km.lock_ml()"
  | 3 => some "km.lock_mr()"
  | 4 => some "km.lock_mm()"
  | 5 => some "km.lock_ms1()"
  | 6 => some "km.lock_ms2()"
  | _ => none

/-- `CommandCache::getPressCommand`: bounds-checked lookup by enum value. -/
def getPressCommand (b : MouseButton) : Option String :=
  press_commands b.idx

/-- `CommandCache::getReleaseCommand`: bounds-checked lookup by enum value. -/
def getReleaseCommand (b : MouseButton) : Option String :=
  release_commands b.idx

/-- Spec naming: `<name>` is `left|right|middle|ms1|ms2` for the five buttons. -/
def buttonWireName : MouseButton → String
  | .left => "left"
  | .right => "right"
  | .middle => "middle"
  | .side1 => "ms1"
  | .side2 => "ms2"
  | .unknown => ""

/-- Spec naming: `<suffix>` is `mx|my|ml|mr|mm|ms1|ms2` for the seven targets. -/
def lockSuffix : LockTarget → String
  | .x => "mx"
  | .y => "my"
  | .left => "ml"
  | .right => "mr"
  | .middle => "mm"
  | .side1 => "ms1"
  | .side2 => "ms2"

/-- A MouseButton is one of the five real buttons (not the UNKNOWN sentinel). -/
def MouseButton.isReal : MouseButton → Bool
  | .unknown => false
  | _ => true

/-- C1: For every real MouseButton B the cached press string is
`km.<name>(1)` and the release string is `km.<name>(0)` with name in
left/right/middle/ms1/ms2; for every LockTarget T the cached lock, unlock
and query strings are `km.lock_<suffix>(1)`, `km.lock_<suffix>(0)` and
`km.lock_<suffix>()` with suffix in mx/my/ml/mr/mm/ms1/ms2. -/
theorem commandCache_correct :
    (∀ b : MouseButton, b.isReal = true →
      getPressCommand b = some ("km." ++ buttonWireName b ++ "(1)") ∧
      getReleaseCommand b = some ("km." ++ buttonWireName b ++ "(0)")) ∧
    (∀ t : LockTarget,
      lock_commands t.idx = some ("km.lock_" ++ lockSuffix t ++ "(1)") ∧
      unlock_commands t.idx = some ("km.lock_" ++ lockSuffix t ++ "(0)") ∧
      query_commands t.idx = some ("km.lock_" ++ lockSuffix t ++ "()")) := by
  constructor
  · intro b hb
    cases b <;> simp_all [getPressCommand, getReleaseCommand, MouseButton.isReal,
      MouseButton.idx, press_commands, release_commands, buttonWireName]
  · intro t
    cases t <;> simp [LockTarget.idx, lock_commands, unlock_commands,
      query_commands, lockSuffix]

/-- Witness for `commandCache_correct` at LEFT and X. -/
theorem commandCache_correct_witness :
    getPressCommand MouseButton.left = some "km.left(1)" ∧
    lock_commands LockTarget.x.idx = some "km.lock_mx(1)" := by
  refine ⟨?_, ?_⟩
  · have h := commandCache_correct.1 MouseButton.left rfl
    simpa [buttonWireName] using h.1
  · have h := (commandCache_correct.2 LockTarget.x).1
    simpa [lockSuffix] using h

/-! ## Serial-port effect model

Commands go out through `SerialPort::sendCommand`; we record the trace of
command strings and draw each write's success from an oracle `ok : Nat → Bool`
indexed by the running write counter. -/

/-- State of the serial link as seen by `Device::Impl`: the trace of command
strings written so far, the number of writes performed, and an oracle giving
the transport-level outcome of each successive write. -/
structure Port where
  sent : List String
  n : Nat
  ok : Nat → Bool

/-- `SerialPort::sendCommand`: the write is attempted (traced) and its
outcome is the oracle's verdict for this write. -/
def sendCommand (p : Port) (c : String) : Bool × Port :=
  (p.ok p.n, { p with sent := p.sent ++ [c], n := p.n + 1 })

/-- `Device::Impl::executeCommand` (makcu.cpp 417–432): fail fast when not
connected, otherwise send the string (profiling is write-only and omitted). -/
def executeCommand (connected : Bool) (p : Port) (c : String) : Bool × Port :=
  if connected then sendCommand p c else (false, p)

/-! ## Baud-rate change handshake (makcu.cpp 262–299) -/

/-- Events of the binary/baud path of `performBaudRateChange`. -/
inductive PortEvent where
  | writeBytes (bytes : List Nat)
  | flush
  | closePort
  | openPort (name : String) (baud : Nat)
  deriving DecidableEq, Repr

/-- Transport outcomes feeding one run of `performBaudRateChange`. -/
structure BaudPort where
  isOpen : Bool
  portName : String
  writeOk : Bool
  flushOk : Bool
  reopenOk : Bool

/-- The 9-byte MAKCU baud-change frame: `DE AD 05 00 A5` then the rate's four
little-endian bytes, as built in `performBaudRateChange`. -/
def baudChangeCommand (r : Nat) : List Nat :=
  [0xDE, 0xAD, 0x05, 0x00, 0xA5,
   r % 256, (r / 2 ^ 8) % 256, (r / 2 ^ 16) % 256, (r / 2 ^ 24) % 256]

/-- `Device::Impl::performBaudRateChange`: check the port is open, write the
frame, flush, close, sleep (not modelled), reopen at the new rate; each step's
failure aborts with `false`. Returns the result and the event trace. -/
def performBaudRateChange (bp : BaudPort) (baudRate : Nat) : Bool × List PortEvent :=
  if !bp.isOpen then (false, [])
  else
    let evs := [PortEvent.writeBytes (baudChangeCommand baudRate)]
    if !bp.writeOk then (false, evs)
    else
      let evs := evs ++ [PortEvent.flush]
      if !bp.flushOk then (false, evs)
      else
        let evs := evs ++ [PortEvent.closePort, PortEvent.openPort bp.portName baudRate]
        (bp.reopenOk, evs)

/-- C2: for a 32-bit rate r, when the port is open and the write and flush
succeed, the handshake emits exactly the frame
`DE AD 05 00 A5 b0 b1 b2 b3` (b little-endian bytes of r), then flush, close
and a reopen at rate r, and the overall result is exactly the reopen's. -/
theorem performBaudRateChange_frame (bp : BaudPort) (r : Nat) (hr : r < 2 ^ 32)
    (hopen : bp.isOpen = true) (hw : bp.writeOk = true) (hf : bp.flushOk = true) :
    performBaudRateChange bp r =
      (bp.reopenOk,
       [PortEvent.writeBytes
          [0xDE, 0xAD, 0x05, 0x00, 0xA5,
           r % 256, (r / 2 ^ 8) % 256, (r / 2 ^ 16) % 256, (r / 2 ^ 24) % 256],
        PortEvent.flush, PortEvent.closePort, PortEvent.openPort bp.portName r]) := by
  simp [performBaudRateChange, hopen, hw, hf, baudChangeCommand]

/-- Witness for `performBaudRateChange_frame` at rate 4000000. -/
theorem performBaudRateChange_frame_witness :
    performBaudRateChange ⟨true, "COM3", true, true, true⟩ 4000000 =
      (true,
       [PortEvent.writeBytes [0xDE, 0xAD, 0x05, 0x00, 0xA5, 0x00, 0x09, 0x3D, 0x00],
        PortEvent.flush, PortEvent.closePort, PortEvent.openPort "COM3" 4000000]) := by
  have h := performBaudRateChange_frame ⟨true, "COM3", true, true, true⟩ 4000000
    (by norm_num) rfl rfl rfl
  simpa using h

/-! ## setBaudRate (makcu.cpp 1250–1298) -/

/-- `std::string::find(pat) != npos`, as a byte/char-level infix test. -/
def containsSubstr (s pat : String) : Bool :=
  (List.range (s.toList.length + 1)).any fun i => pat.toList.isPrefixOf (s.toList.drop i)

/-- Transport outcomes feeding one `setBaudRate` call: the first handshake's
port, the `km.version()` tracked response (`none` models a timeout or
exception), and the recovery handshake's port. -/
structure SBPort where
  hs : BaudPort
  versionResp : Option String
  recovery : BaudPort

/-- The clamp applied by `setBaudRate` before the handshake. -/
def clampBaud (r : Nat) : Nat :=
  if r < 115200 then 115200 else if r > 4000000 then 4000000 else r

/-- Extra events of the `setBaudRate` path beyond the two handshakes. -/
inductive SBEvent where
  | handshake (e : PortEvent)
  | tracked (cmd : String)
  | disconnected
  deriving DecidableEq, Repr

/-- `Device::setBaudRate`: require connected, clamp the rate to
[115200, 4000000], run the handshake at the clamped rate (disconnect on
failure); when validation is requested, probe `km.version()` and on a
response not containing `km.MAKCU` (or an exception) attempt a recovery
handshake back to 115200, disconnecting when recovery is not performed or
fails. Returns the result and the full event trace. -/
def setBaudRate (connected : Bool) (sp : SBPort) (baudRate : Nat)
    (validateCommunication : Bool) : Bool × List SBEvent :=
  if !connected then (false, [])
  else
    let clamped := clampBaud baudRate
    let hs := performBaudRateChange sp.hs clamped
    let evs := hs.2.map SBEvent.handshake
    if !hs.1 then (false, evs ++ [SBEvent.disconnected])
    else if validateCommunication then
      let evs := evs ++ [SBEvent.tracked "km.version()"]
      match sp.versionResp with
      | some resp =>
          if containsSubstr resp "km.MAKCU" then (true, evs)
          else
            if clamped ≠ 115200 then
              let rec1 := performBaudRateChange sp.recovery 115200
              let evs := evs ++ rec1.2.map SBEvent.handshake
              if rec1.1 then (false, evs) else (false, evs ++ [SBEvent.disconnected])
            else (false, evs ++ [SBEvent.disconnected])
      | none =>
          if clamped ≠ 115200 then
            let rec1 := performBaudRateChange sp.recovery 115200
            let evs := evs ++ rec1.2.map SBEvent.handshake
            if rec1.1 then (false, evs) else (false, evs ++ [SBEvent.disconnected])
          else (false, evs ++ [SBEvent.disconnected])
    else (true, evs)

/-- The baud rates mentioned by an event: the rate of an `openPort` and the
rate decoded from a 9-byte baud frame write. -/
def eventBauds : SBEvent → List Nat
  | .handshake (.openPort _ b) => [b]
  | .handshake (.writeBytes [0xDE, 0xAD, 0x05, 0x00, 0xA5, b0, b1, b2, b3]) =>
      [b0 + 256 * b1 + 65536 * b2 + 16777216 * b3]
  | _ => []

/-- All baud rates mentioned across a list of events. -/
def sentBauds : List SBEvent → List Nat
  | [] => []
  | e :: rest => eventBauds e ++ sentBauds rest

theorem sentBauds_append (a b : List SBEvent) :
    sentBauds (a ++ b) = sentBauds a ++ sentBauds b := by
  induction a with
  | nil => simp [sentBauds]
  | cons e rest ih => simp [sentBauds, ih]

@[simp]
theorem eventBauds_tracked (c : String) : eventBauds (SBEvent.tracked c) = [] := rfl

@[simp]
theorem eventBauds_disconnected : eventBauds SBEvent.disconnected = [] := rfl

theorem mem_sentBauds_handshake (bp : BaudPort) (rate : Nat) (h : rate < 2 ^ 32) :
    ∀ b ∈ sentBauds (((performBaudRateChange bp rate).2).map SBEvent.handshake),
      b = rate := by
  intro b hb
  unfold performBaudRateChange at hb
  rcases hOpen : bp.isOpen with _ | _ <;>
    rcases hW : bp.writeOk with _ | _ <;>
      rcases hF : bp.flushOk with _ | _ <;>
        simp [hOpen, hW, hF, sentBauds, eventBauds, baudChangeCommand] at hb <;>
          omega

theorem handshake_events_cons (bp : BaudPort) (rate : Nat) (hopen : bp.isOpen = true) :
    ∃ tl, (performBaudRateChange bp rate).2 =
      PortEvent.writeBytes (baudChangeCommand rate) :: tl := by
  unfold performBaudRateChange
  rcases hW : bp.writeOk with _ | _ <;>
    rcases hF : bp.flushOk with _ | _ <;>
      simp [hopen, hW, hF]

/-- C4: when connected, `setBaudRate(r, validate)` runs the handshake with the
clamped value `min (max r 115200) 4000000`: its first event is the baud frame
for the clamped rate, every baud rate any of its events mentions is the
clamped rate or the 115200 recovery rate, and an out-of-range `r` itself is
never sent. -/
theorem setBaudRate_clamps (sp : SBPort) (r : Nat) (validate : Bool)
    (hopen : sp.hs.isOpen = true) :
    clampBaud r = min (max r 115200) 4000000 ∧
    (setBaudRate true sp r validate).2.head? =
      some (SBEvent.handshake (PortEvent.writeBytes (baudChangeCommand (clampBaud r)))) ∧
    (∀ b ∈ sentBauds (setBaudRate true sp r validate).2, b = clampBaud r ∨ b = 115200) ∧
    ((r < 115200 ∨ 4000000 < r) → r ∉ sentBauds (setBaudRate true sp r validate).2) := by
  have hclamp : clampBaud r = min (max r 115200) 4000000 := by
    unfold clampBaud; split <;> [omega; (split <;> omega)]
  have hlt : clampBaud r < 2 ^ 32 := by
    unfold clampBaud; split <;> [omega; (split <;> omega)]
  have hmain := mem_sentBauds_handshake sp.hs (clampBaud r) hlt
  have hrec := mem_sentBauds_handshake sp.recovery 115200 (by norm_num)
  have hmem : ∀ b ∈ sentBauds (setBaudRate true sp r validate).2,
      b = clampBaud r ∨ b = 115200 := by
    intro b hb
    simp only [setBaudRate, Bool.not_true, Bool.false_eq_true, if_false] at hb
    repeat' split at hb
    all_goals
      simp only [sentBauds_append, sentBauds, eventBauds_tracked,
        eventBauds_disconnected, List.append_nil, List.nil_append,
        List.mem_append, List.not_mem_nil, or_false, false_or] at hb
    all_goals
      first
      | exact Or.inl (hmain b hb)
      | (rcases hb with hb | hb
         · exact Or.inl (hmain b hb)
         · exact Or.inr (hrec b hb))
  refine ⟨hclamp, ?_, hmem, ?_⟩
  · obtain ⟨tl, htl⟩ := handshake_events_cons sp.hs (clampBaud r) hopen
    simp only [setBaudRate, Bool.not_true, Bool.false_eq_true, if_false]
    repeat' split
    all_goals simp [htl]
  · intro hr hmem2
    rcases hmem r hmem2 with h | h
    · rw [hclamp] at h; omega
    · omega

/-- Witness for `setBaudRate_clamps`: a request of 9000000 over an open,
fully-succeeding port sends the 4000000 frame and never the 9000000 one. -/
theorem setBaudRate_clamps_witness :
    (setBaudRate true ⟨⟨true, "COM3", true, true, true⟩, some "km.MAKCU v3.2",
        ⟨true, "COM3", true, true, true⟩⟩ 9000000 true).2.head? =
      some (SBEvent.handshake (PortEvent.writeBytes (baudChangeCommand 4000000))) ∧
    9000000 ∉ sentBauds (setBaudRate true ⟨⟨true, "COM3", true, true, true⟩,
        some "km.MAKCU v3.2", ⟨true, "COM3", true, true, true⟩⟩ 9000000 true).2 := by
  have h := setBaudRate_clamps ⟨⟨true, "COM3", true, true, true⟩, some "km.MAKCU v3.2",
    ⟨true, "COM3", true, true, true⟩⟩ 9000000 true rfl
  refine ⟨?_, h.2.2.2 (by norm_num)⟩
  have hc : clampBaud 9000000 = 4000000 := by norm_num [clampBaud]
  simpa [hc] using h.2.1


/-! ## Move / wheel commands (makcu.cpp 436–539) -/

/-- `Device::Impl::executeMoveCommand`: validate both coordinates against the
signed-16-bit range, build `km.move(x,y)` into the reused buffer, reject
overlong commands, then send. -/
def executeMoveCommand (connected : Bool) (p : Port) (x y : Int) : Bool × Port :=
  if x < -32768 ∨ x > 32767 ∨ y < -32768 ∨ y > 32767 then (false, p)
  else
    let cmd := "km.move(" ++ toString x ++ "," ++ toString y ++ ")"
    if cmd.length > 512 then (false, p)
    else executeCommand connected p cmd

/-- `Device::Impl::executeSmoothMoveCommand`: validate coordinates and the
segment cap (1000), build `km.move(x,y,n)`, send. -/
def executeSmoothMoveCommand (connected : Bool) (p : Port) (x y : Int)
    (segments : Nat) : Bool × Port :=
  if x < -32768 ∨ x > 32767 ∨ y < -32768 ∨ y > 32767 then (false, p)
  else if segments > 1000 then (false, p)
  else
    executeCommand connected p
      ("km.move(" ++ toString x ++ "," ++ toString y ++ "," ++ toString segments ++ ")")

/-- `Device::Impl::executeBezierMoveCommand`: validate all four coordinates
and the segment cap, build `km.move(x,y,n,cx,cy)`, send. -/
def executeBezierMoveCommand (connected : Bool) (p : Port) (x y : Int)
    (segments : Nat) (ctrlX ctrlY : Int) : Bool × Port :=
  if x < -32768 ∨ x > 32767 ∨ y < -32768 ∨ y > 32767 ∨
      ctrlX < -32768 ∨ ctrlX > 32767 ∨ ctrlY < -32768 ∨ ctrlY > 32767 then (false, p)
  else if segments > 1000 then (false, p)
  else
    executeCommand connected p
      ("km.move(" ++ toString x ++ "," ++ toString y ++ "," ++ toString segments ++
        "," ++ toString ctrlX ++ "," ++ toString ctrlY ++ ")")

/-- `Device::Impl::executeWheelCommand`: validate the wheel delta, build
`km.wheel(d)`, send. -/
def executeWheelCommand (connected : Bool) (p : Port) (delta : Int) : Bool × Port :=
  if delta < -32768 ∨ delta > 32767 then (false, p)
  else executeCommand connected p ("km.wheel(" ++ toString delta ++ ")")

/-- `Device::mouseMove`: fail fast when not connected, else delegate. -/
def mouseMove (connected : Bool) (p : Port) (x y : Int) : Bool × Port :=
  if !connected then (false, p) else executeMoveCommand connected p x y

/-- `Device::mouseMoveSmooth`. -/
def mouseMoveSmooth (connected : Bool) (p : Port) (x y : Int)
    (segments : Nat) : Bool × Port :=
  if !connected then (false, p) else executeSmoothMoveCommand connected p x y segments

/-- `Device::mouseMoveBezier`. -/
def mouseMoveBezier (connected : Bool) (p : Port) (x y : Int) (segments : Nat)
    (ctrlX ctrlY : Int) : Bool × Port :=
  if !connected then (false, p)
  else executeBezierMoveCommand connected p x y segments ctrlX ctrlY

/-- `Device::mouseWheel`. -/
def mouseWheel (connected : Bool) (p : Port) (delta : Int) : Bool × Port :=
  if !connected then (false, p) else executeWheelCommand connected p delta

/-- C5: whenever a coordinate, control offset or wheel delta of `mouseMove`,
`mouseMoveSmooth`, `mouseMoveBezier` or `mouseWheel` lies outside
[-32768, 32767], or a segment count exceeds 1000, the call returns false and
the port is untouched: nothing is sent, and no truncated value is sent. -/
theorem argumentValidation_rejects :
    (∀ (c : Bool) (p : Port) (x y : Int),
      (x < -32768 ∨ x > 32767 ∨ y < -32768 ∨ y > 32767) →
      mouseMove c p x y = (false, p)) ∧
    (∀ (c : Bool) (p : Port) (x y : Int) (segments : Nat),
      (x < -32768 ∨ x > 32767 ∨ y < -32768 ∨ y > 32767 ∨ segments > 1000) →
      mouseMoveSmooth c p x y segments = (false, p)) ∧
    (∀ (c : Bool) (p : Port) (x y : Int) (segments : Nat) (cx cy : Int),
      (x < -32768 ∨ x > 32767 ∨ y < -32768 ∨ y > 32767 ∨
        cx < -32768 ∨ cx > 32767 ∨ cy < -32768 ∨ cy > 32767 ∨ segments > 1000) →
      mouseMoveBezier c p x y segments cx cy = (false, p)) ∧
    (∀ (c : Bool) (p : Port) (delta : Int),
      (delta < -32768 ∨ delta > 32767) →
      mouseWheel c p delta = (false, p)) := by
  refine ⟨?_, ?_, ?_, ?_⟩
  · intro c p x y h
    cases c
    · rfl
    · show executeMoveCommand true p x y = (false, p)
      unfold executeMoveCommand
      rw [if_pos h]
  · intro c p x y segments h
    cases c
    · rfl
    · show executeSmoothMoveCommand true p x y segments = (false, p)
      unfold executeSmoothMoveCommand
      by_cases hc : x < -32768 ∨ x > 32767 ∨ y < -32768 ∨ y > 32767
      · rw [if_pos hc]
      · rw [if_neg hc, if_pos (by omega)]
  · intro c p x y segments cx cy h
    cases c
    · rfl
    · show executeBezierMoveCommand true p x y segments cx cy = (false, p)
      unfold executeBezierMoveCommand
      by_cases hc : x < -32768 ∨ x > 32767 ∨ y < -32768 ∨ y > 32767 ∨
          cx < -32768 ∨ cx > 32767 ∨ cy < -32768 ∨ cy > 32767
      · rw [if_pos hc]
      · rw [if_neg hc, if_pos (by omega)]
  · intro c p delta h
    cases c
    · rfl
    · show executeWheelCommand true p delta = (false, p)
      unfold executeWheelCommand
      rw [if_pos h]

/-- Witness for `argumentValidation_rejects`: an x of 40000 is rejected by
`mouseMove` with nothing sent. -/
theorem argumentValidation_rejects_witness :
    mouseMove true (Port.mk [] 0 fun _ => true) 40000 0 =
      (false, Port.mk [] 0 fun _ => true) :=
  argumentValidation_rejects.1 true (Port.mk [] 0 fun _ => true) 40000 0
    (Or.inr (Or.inl (by norm_num)))

/-! ## Drag sequences (makcu.cpp 908–958) -/

/-- Decimal length bound: a signed 16-bit value prints in at most 6 chars. -/
theorem toString_int_length_le (x : Int) (h1 : -32768 ≤ x) (h2 : x ≤ 32767) :
    (toString x).length ≤ 6 := by
  cases x with
  | ofNat m =>
      have hm : m < 10 ^ 5 := by
        have hc : (m : Int) ≤ 32767 := by
          rw [show ((m : Int)) = Int.ofNat m from rfl]; exact h2
        omega
      calc (toString (Int.ofNat m)).length = (Nat.repr m).length := rfl
        _ ≤ 5 := Nat.repr_length m 5 (by norm_num) hm
        _ ≤ 6 := by norm_num
  | negSucc m =>
      have hm : m + 1 < 10 ^ 5 := by
        have : -32768 ≤ Int.negSucc m := h1
        rw [Int.negSucc_eq] at this
        omega
      calc (toString (Int.negSucc m)).length
          = ("-" ++ Nat.repr (m + 1)).length := rfl
        _ = 1 + (Nat.repr (m + 1)).length := String.length_append _ _
        _ ≤ 1 + 5 := by
            have := Nat.repr_length (m + 1) 5 (by norm_num) hm
            omega
        _ ≤ 6 := by norm_num

/-- For in-range coordinates `executeMoveCommand` always sends: the range
check passes and the 512-byte buffer check can never fire. -/
theorem executeMoveCommand_inRange (x y : Int)
    (hx1 : -32768 ≤ x) (hx2 : x ≤ 32767) (hy1 : -32768 ≤ y) (hy2 : y ≤ 32767)
    (p : Port) :
    executeMoveCommand true p x y =
      sendCommand p ("km.move(" ++ toString x ++ "," ++ toString y ++ ")") := by
  have lx := toString_int_length_le x hx1 hx2
  have ly := toString_int_length_le y hy1 hy2
  simp only [executeMoveCommand]
  rw [if_neg (by omega), if_neg, executeCommand, if_pos rfl]
  simp only [String.length_append]
  have h1 : ("km.move(" : String).length = 8 := rfl
  have h2 : ("," : String).length = 1 := rfl
  have h3 : (")" : String).length = 1 := rfl
  omega

/-- For in-range arguments `executeSmoothMoveCommand` always sends. -/
theorem executeSmoothMoveCommand_inRange (x y : Int) (segments : Nat)
    (hx1 : -32768 ≤ x) (hx2 : x ≤ 32767) (hy1 : -32768 ≤ y) (hy2 : y ≤ 32767)
    (hs : segments ≤ 1000) (p : Port) :
    executeSmoothMoveCommand true p x y segments =
      sendCommand p ("km.move(" ++ toString x ++ "," ++ toString y ++ "," ++
        toString segments ++ ")") := by
  simp only [executeSmoothMoveCommand]
  rw [if_neg (by omega), if_neg (by omega), executeCommand, if_pos rfl]

/-- For in-range arguments `executeBezierMoveCommand` always sends. -/
theorem executeBezierMoveCommand_inRange (x y : Int) (segments : Nat)
    (cx cy : Int)
    (hx1 : -32768 ≤ x) (hx2 : x ≤ 32767) (hy1 : -32768 ≤ y) (hy2 : y ≤ 32767)
    (hcx1 : -32768 ≤ cx) (hcx2 : cx ≤ 32767) (hcy1 : -32768 ≤ cy) (hcy2 : cy ≤ 32767)
    (hs : segments ≤ 1000) (p : Port) :
    executeBezierMoveCommand true p x y segments cx cy =
      sendCommand p ("km.move(" ++ toString x ++ "," ++ toString y ++ "," ++
        toString segments ++ "," ++ toString cx ++ "," ++ toString cy ++ ")") := by
  simp only [executeBezierMoveCommand]
  rw [if_neg (by omega), if_neg (by omega), executeCommand, if_pos rfl]

/-- `Device::mouseDrag`: check connected, look up both cached commands, then
run press, move, release in order and return the conjunction of the three
results. -/
def mouseDrag (connected : Bool) (p : Port) (b : MouseButton)
    (x y : Int) : Bool × Port :=
  if !connected then (false, p)
  else
    match getPressCommand b, getReleaseCommand b with
    | some pressCmd, some releaseCmd =>
        let r1 := executeCommand connected p pressCmd
        let r2 := executeMoveCommand connected r1.2 x y
        let r3 := executeCommand connected r2.2 releaseCmd
        (r1.1 && r2.1 && r3.1, r3.2)
    | _, _ => (false, p)

/-- `Device::mouseDragSmooth`. -/
def mouseDragSmooth (connected : Bool) (p : Port) (b : MouseButton)
    (x y : Int) (segments : Nat) : Bool × Port :=
  if !connected then (false, p)
  else
    match getPressCommand b, getReleaseCommand b with
    | some pressCmd, some releaseCmd =>
        let r1 := executeCommand connected p pressCmd
        let r2 := executeSmoothMoveCommand connected r1.2 x y segments
        let r3 := executeCommand connected r2.2 releaseCmd
        (r1.1 && r2.1 && r3.1, r3.2)
    | _, _ => (false, p)

/-- `Device::mouseDragBezier`. -/
def mouseDragBezier (connected : Bool) (p : Port) (b : MouseButton)
    (x y : Int) (segments : Nat) (ctrlX ctrlY : Int) : Bool × Port :=
  if !connected then (false, p)
  else
    match getPressCommand b, getReleaseCommand b with
    | some pressCmd, some releaseCmd =>
        let r1 := executeCommand connected p pressCmd
        let r2 := executeBezierMoveCommand connected r1.2 x y segments ctrlX ctrlY
        let r3 := executeCommand connected r2.2 releaseCmd
        (r1.1 && r2.1 && r3.1, r3.2)
    | _, _ => (false, p)

/-- C3 counterexample: on a connected device whose first write fails (and
later writes succeed), `mouseDrag(LEFT, 1, 2)` still sends the move and the
release after the failed press — the failure does not stop the sequence as
the claim asserts — and only the overall result is false. -/
theorem mouseDrag_counterexample :
    (mouseDrag true (Port.mk [] 0 fun i => decide (0 < i))
        MouseButton.left 1 2).1 = false ∧
    ((mouseDrag true (Port.mk [] 0 fun i => decide (0 < i))
        MouseButton.left 1 2).2).sent =
      ["km.left(1)", "km.move(1,2)", "km.left(0)"] ∧
    (Port.mk ([] : List String) 0 fun i => decide (0 < i)).ok 0 = false := by
  refine ⟨rfl, by decide, rfl⟩

/-- C3 amended: when connected, with a real button and in-range arguments,
each of `mouseDrag`, `mouseDragSmooth` and `mouseDragBezier` sends press,
then move, then release — all three unconditionally, a failed earlier send
does not suppress the later ones — and the overall result is the conjunction
of the three transport results (false as soon as any one fails). -/
theorem mouseDrag_sequences :
    (∀ (p : Port) (b : MouseButton) (pc rc : String) (x y : Int),
      getPressCommand b = some pc → getReleaseCommand b = some rc →
      -32768 ≤ x → x ≤ 32767 → -32768 ≤ y → y ≤ 32767 →
      ((mouseDrag true p b x y).2).sent =
        p.sent ++ [pc, "km.move(" ++ toString x ++ "," ++ toString y ++ ")", rc] ∧
      (mouseDrag true p b x y).1 =
        (p.ok p.n && p.ok (p.n + 1) && p.ok (p.n + 1 + 1))) ∧
    (∀ (p : Port) (b : MouseButton) (pc rc : String) (x y : Int) (segments : Nat),
      getPressCommand b = some pc → getReleaseCommand b = some rc →
      -32768 ≤ x → x ≤ 32767 → -32768 ≤ y → y ≤ 32767 → segments ≤ 1000 →
      ((mouseDragSmooth true p b x y segments).2).sent =
        p.sent ++ [pc, "km.move(" ++ toString x ++ "," ++ toString y ++ "," ++
          toString segments ++ ")", rc] ∧
      (mouseDragSmooth true p b x y segments).1 =
        (p.ok p.n && p.ok (p.n + 1) && p.ok (p.n + 1 + 1))) ∧
    (∀ (p : Port) (b : MouseButton) (pc rc : String) (x y : Int) (segments : Nat)
      (cx cy : Int),
      getPressCommand b = some pc → getReleaseCommand b = some rc →
      -32768 ≤ x → x ≤ 32767 → -32768 ≤ y → y ≤ 32767 →
      -32768 ≤ cx → cx ≤ 32767 → -32768 ≤ cy → cy ≤ 32767 → segments ≤ 1000 →
      ((mouseDragBezier true p b x y segments cx cy).2).sent =
        p.sent ++ [pc, "km.move(" ++ toString x ++ "," ++ toString y ++ "," ++
          toString segments ++ "," ++ toString cx ++ "," ++ toString cy ++ ")", rc] ∧
      (mouseDragBezier true p b x y segments cx cy).1 =
        (p.ok p.n && p.ok (p.n + 1) && p.ok (p.n + 1 + 1))) := by
  refine ⟨?_, ?_, ?_⟩
  · intro p b pc rc x y hp hr hx1 hx2 hy1 hy2
    simp only [mouseDrag, Bool.not_true, Bool.false_eq_true, if_false, hp, hr]
    rw [show executeCommand true p pc = sendCommand p pc from rfl,
      executeMoveCommand_inRange x y hx1 hx2 hy1 hy2]
    simp [executeCommand, sendCommand, List.append_assoc]
  · intro p b pc rc x y segments hp hr hx1 hx2 hy1 hy2 hs
    simp only [mouseDragSmooth, Bool.not_true, Bool.false_eq_true, if_false, hp, hr]
    rw [show executeCommand true p pc = sendCommand p pc from rfl,
      executeSmoothMoveCommand_inRange x y segments hx1 hx2 hy1 hy2 hs]
    simp [executeCommand, sendCommand, List.append_assoc]
  · intro p b pc rc x y segments cx cy hp hr hx1 hx2 hy1 hy2 hcx1 hcx2 hcy1 hcy2 hs
    simp only [mouseDragBezier, Bool.not_true, Bool.false_eq_true, if_false, hp, hr]
    rw [show executeCommand true p pc = sendCommand p pc from rfl,
      executeBezierMoveCommand_inRange x y segments cx cy
        hx1 hx2 hy1 hy2 hcx1 hcx2 hcy1 hcy2 hs]
    simp [executeCommand, sendCommand, List.append_assoc]

/-- Witness for `mouseDrag_sequences` at LEFT, (1,2), all sends succeeding. -/
theorem mouseDrag_sequences_witness :
    ((mouseDrag true (Port.mk [] 0 fun _ => true) MouseButton.left 1 2).2).sent =
      [] ++ ["km.left(1)", "km.move(" ++ toString (1 : Int) ++ "," ++
        toString (2 : Int) ++ ")", "km.left(0)"] :=
  (mouseDrag_sequences.1 (Port.mk [] 0 fun _ => true) MouseButton.left
    "km.left(1)" "km.left(0)" 1 2 rfl rfl (by norm_num) (by norm_num)
    (by norm_num) (by norm_num)).1

/-! ## Lock-state cache (makcu.cpp 541–565, 973–1105) -/

/-- `Device::Impl`'s lock-state cache: a 16-bit bitmap and a validity flag. -/
structure LockCache where
  bits : Nat
  valid : Bool
  deriving DecidableEq, Repr

/-- `Device::Impl::lockBit`: `1u << to_underlying(target)`. -/
def lockBit (t : LockTarget) : Nat := 1 <<< t.idx

/-- `Device::Impl::updateLockStateCache`: set or clear the target's bit in
16-bit arithmetic (`~bit` on `uint16_t` is `65535 ^^^ bit`) and mark the
cache valid. -/
def updateLockStateCache (c : LockCache) (t : LockTarget) (locked : Bool) : LockCache :=
  { bits := if locked then c.bits ||| lockBit t
            else c.bits &&& (65535 ^^^ lockBit t),
    valid := true }

/-- `Device::Impl::getLockStateFromCache`: false while the cache is invalid,
else the target's bit. -/
def getLockStateFromCache (c : LockCache) (t : LockTarget) : Bool :=
  if !c.valid then false
  else (c.bits &&& lockBit t) != 0

/-- `Device::lockMouseX` … `lockMouseSide2` (makcu.cpp 973–1076): the seven
bodies are the same code at a fixed target: check connected, pick the cached
lock or unlock string, send it, and update the cache only on success. -/
def lockMouse (connected : Bool) (p : Port) (c : LockCache) (t : LockTarget)
    (lock : Bool) : Bool × Port × LockCache :=
  if !connected then (false, p, c)
  else
    let command := (if lock then lock_commands t.idx else unlock_commands t.idx).getD ""
    let r := executeCommand connected p command
    (r.1, r.2, if r.1 then updateLockStateCache c t lock else c)

/-- `Device::isMouseXLocked` … `isMouseSide2Locked`: read the cache. -/
def isMouseLocked (c : LockCache) (t : LockTarget) : Bool :=
  getLockStateFromCache c t

theorem and_one_shiftLeft_ne_zero (x k : Nat) :
    ((x &&& (1 <<< k)) != 0) = x.testBit k := by
  rw [Nat.one_shiftLeft, Nat.and_two_pow]
  cases h : x.testBit k <;> simp [h]

theorem testBit_or_shiftLeft_self (x k : Nat) :
    (x ||| (1 <<< k)).testBit k = true := by
  simp [Nat.testBit_or, Nat.one_shiftLeft, Nat.testBit_two_pow_self]

theorem testBit_or_shiftLeft_other (x k j : Nat) (h : j ≠ k) :
    (x ||| (1 <<< k)).testBit j = x.testBit j := by
  simp [Nat.testBit_or, Nat.one_shiftLeft, Nat.testBit_two_pow_of_ne (Ne.symm h)]

theorem testBit_and_mask_self (x k : Nat) (hk : k < 16) :
    (x &&& (65535 ^^^ (1 <<< k))).testBit k = false := by
  rw [Nat.testBit_and, Nat.testBit_xor, Nat.one_shiftLeft]
  rw [show (65535 : Nat) = 2 ^ 16 - 1 by norm_num]
  rw [Nat.testBit_two_pow_sub_one, Nat.testBit_two_pow_self]
  simp [hk]

theorem testBit_and_mask_other (x k j : Nat) (hj : j < 16) (h : j ≠ k) :
    (x &&& (65535 ^^^ (1 <<< k))).testBit j = x.testBit j := by
  rw [Nat.testBit_and, Nat.testBit_xor, Nat.one_shiftLeft]
  rw [show (65535 : Nat) = 2 ^ 16 - 1 by norm_num]
  rw [Nat.testBit_two_pow_sub_one, Nat.testBit_two_pow_of_ne (Ne.symm h)]
  simp [hj]

theorem LockTarget.idx_lt_16 (t : LockTarget) : t.idx < 16 := by
  cases t <;> decide

/-- C6: when connected, a successful lock/unlock write sets the target's
cache bit to the requested value, marks the cache valid and leaves every
other (16-bit) cache bit unchanged, so the subsequent cached query returns
that value; a failed write leaves the cache untouched; and while the
validity flag is false every cached query answers false. -/
theorem lockStateCache_behaviour :
    (∀ (p : Port) (c : LockCache) (t : LockTarget) (b : Bool),
      (lockMouse true p c t b).1 = true →
      getLockStateFromCache ((lockMouse true p c t b).2.2) t = b ∧
      ((lockMouse true p c t b).2.2).valid = true ∧
      (∀ j : Nat, j < 16 → j ≠ t.idx →
        ((lockMouse true p c t b).2.2).bits.testBit j = c.bits.testBit j)) ∧
    (∀ (p : Port) (c : LockCache) (t : LockTarget) (b : Bool),
      (lockMouse true p c t b).1 = false →
      (lockMouse true p c t b).2.2 = c) ∧
    (∀ (c : LockCache) (t : LockTarget), c.valid = false →
      getLockStateFromCache c t = false) := by
  refine ⟨?_, ?_, ?_⟩
  · intro p c t b h
    have h' : p.ok p.n = true := by
      simpa [lockMouse, executeCommand, sendCommand] using h
    simp only [lockMouse, Bool.not_true, Bool.false_eq_true, if_false,
      executeCommand, if_pos rfl, sendCommand, h', if_true]
    refine ⟨?_, rfl, ?_⟩
    · cases b with
      | true =>
          simp only [updateLockStateCache, getLockStateFromCache, lockBit,
            if_true, Bool.not_true, Bool.false_eq_true, if_false]
          rw [and_one_shiftLeft_ne_zero, testBit_or_shiftLeft_self]
      | false =>
          simp only [updateLockStateCache, getLockStateFromCache, lockBit,
            Bool.false_eq_true, if_false, Bool.not_true]
          rw [and_one_shiftLeft_ne_zero, testBit_and_mask_self _ _ t.idx_lt_16]
    · intro j hj hne
      cases b with
      | true =>
          simp only [updateLockStateCache, lockBit, if_true]
          exact testBit_or_shiftLeft_other _ _ _ hne
      | false =>
          simp only [updateLockStateCache, lockBit, Bool.false_eq_true, if_false]
          exact testBit_and_mask_other _ _ _ hj hne
  · intro p c t b h
    have h' : p.ok p.n = false := by
      simpa [lockMouse, executeCommand, sendCommand] using h
    simp [lockMouse, executeCommand, sendCommand, h']
  · intro c t h
    simp [getLockStateFromCache, h]

/-- Witness for `lockStateCache_behaviour`: locking X on a succeeding port
makes the cached X query true; on a failing port the cache is untouched;
and an invalid cache answers false. -/
theorem lockStateCache_behaviour_witness :
    getLockStateFromCache ((lockMouse true (Port.mk [] 0 fun _ => true)
      (LockCache.mk 0 false) LockTarget.x true).2.2) LockTarget.x = true ∧
    (lockMouse true (Port.mk [] 0 fun _ => false)
      (LockCache.mk 0 false) LockTarget.x true).2.2 = LockCache.mk 0 false ∧
    getLockStateFromCache (LockCache.mk 0 false) LockTarget.x = false := by
  refine ⟨?_, ?_, ?_⟩
  · exact (lockStateCache_behaviour.1 (Port.mk [] 0 fun _ => true)
      (LockCache.mk 0 false) LockTarget.x true rfl).1
  · exact lockStateCache_behaviour.2.1 (Port.mk [] 0 fun _ => false)
      (LockCache.mk 0 false) LockTarget.x true rfl
  · exact lockStateCache_behaviour.2.2 (LockCache.mk 0 false) LockTarget.x rfl

/-! ## catchMouse response parsing (makcu.cpp 38–52, 1120–1193) -/

/-- Base-10 value of a run of digit characters, most significant first. -/
def digitsVal (ds : List Char) : Nat :=
  ds.foldl (fun acc d => 10 * acc + (d.toNat - 48)) 0

/-- `std::from_chars` on `int`: an optional leading minus sign, then a
maximal nonempty run of decimal digits; yields the signed value and the
unconsumed remainder, or nothing when no digit follows the start.
(A `+` sign is not accepted; out-of-range values are rejected by the caller's
range check either way.) -/
def fromCharsInt (cs : List Char) : Option (Int × List Char) :=
  match cs with
  | [] => none
  | c :: rest =>
      if c = '-' then
        let ds := rest.takeWhile Char.isDigit
        if ds.isEmpty then none
        else some (-(digitsVal ds : Int), rest.dropWhile Char.isDigit)
      else
        let ds := (c :: rest).takeWhile Char.isDigit
        if ds.isEmpty then none
        else some ((digitsVal ds : Int), (c :: rest).dropWhile Char.isDigit)

/-- `parseUint8Decimal` (makcu.cpp 38–52) over the character sequence:
`from_chars`, reject partial consumption, reject values outside [0, 255]. -/
def parseUint8Core (cs : List Char) : Option Nat :=
  match fromCharsInt cs with
  | none => none
  | some (v, rest) =>
      if rest ≠ [] then none
      else if v < 0 ∨ v > 255 then none
      else some v.toNat

/-- `parseUint8Decimal` on the `string_view` of the response. -/
def parseUint8Decimal (s : String) : Option Nat :=
  parseUint8Core s.toList

/-- `Device::catchMouseLeft` … `catchMouseSide2` (makcu.cpp 1120–1193): the
five bodies are the same code at a fixed command. The tracked request's
outcome is `none` when `future.get()` throws (timeout or disconnect), else
the returned text; the call parses it and falls back to 0. -/
def catchMouse (connected : Bool) (resp : Option String) : Nat :=
  if !connected then 0
  else
    match resp with
    | none => 0
    | some response => (parseUint8Decimal response).getD 0

/-- The claim's reading of a valid reply: a nonempty all-digits string (no
sign, no trailing characters) whose value is at most 255. -/
def claimByteCore (cs : List Char) : Option Nat :=
  if cs ≠ [] ∧ cs.all Char.isDigit ∧ digitsVal cs ≤ 255
  then some (digitsVal cs) else none

/-- The first character surviving `dropWhile` fails the predicate. -/
theorem dropWhile_head_false (p : Char → Bool) :
    ∀ (l : List Char) (c : Char) (cs : List Char),
      l.dropWhile p = c :: cs → p c = false := by
  intro l
  induction l with
  | nil => intro c cs h; exact absurd h (by simp)
  | cons a as ih =>
      intro c cs h
      rw [List.dropWhile_cons] at h
      by_cases ha : p a
      · rw [if_pos ha] at h; exact ih c cs h
      · rw [if_neg ha] at h
        cases h
        exact Bool.not_eq_true _ ▸ eq_false_of_ne_true ha

/-- Code and claim agree after the `value_or(0)` fallback: the parser
returns the claim's value on digits-only strings up to 255 and the fallback
0 everywhere else. -/
theorem parseUint8Core_eq_claim (cs : List Char) :
    (parseUint8Core cs).getD 0 = (claimByteCore cs).getD 0 := by
  rcases cs with _ | ⟨c, rest⟩
  · simp [parseUint8Core, fromCharsInt, claimByteCore]
  · by_cases hc : c = '-'
    · subst hc
      rw [show claimByteCore ('-' :: rest) = none from by simp [claimByteCore]]
      unfold parseUint8Core
      simp only [fromCharsInt]
      rw [if_true]
      by_cases hds : (rest.takeWhile Char.isDigit).isEmpty
      · rw [if_pos hds]
      · rw [if_neg hds]
        show (if (rest.dropWhile Char.isDigit) ≠ [] then none
              else if -(digitsVal (rest.takeWhile Char.isDigit) : Int) < 0 ∨
                  -(digitsVal (rest.takeWhile Char.isDigit) : Int) > 255 then none
              else some (-(digitsVal (rest.takeWhile Char.isDigit) : Int)).toNat).getD 0
            = Option.getD none 0
        split
        · rfl
        · split
          · rfl
          · rename_i hne hv
            push_neg at hv
            have h0 : (digitsVal (rest.takeWhile Char.isDigit) : Int) = 0 := by omega
            simp [h0]
    · unfold parseUint8Core
      simp only [fromCharsInt]
      rw [if_neg hc]
      by_cases hds : ((c :: rest).takeWhile Char.isDigit).isEmpty
      · rw [if_pos hds]
        have hcd : Char.isDigit c = false := by
          rw [List.takeWhile_cons] at hds
          by_cases h' : Char.isDigit c
          · rw [if_pos h'] at hds; exact absurd hds (by simp)
          · exact eq_false_of_ne_true h'
        rw [show claimByteCore (c :: rest) = none from by simp [claimByteCore, hcd]]
      · rw [if_neg hds]
        show (if ((c :: rest).dropWhile Char.isDigit) ≠ [] then none
              else if (digitsVal ((c :: rest).takeWhile Char.isDigit) : Int) < 0 ∨
                  (digitsVal ((c :: rest).takeWhile Char.isDigit) : Int) > 255 then none
              else some ((digitsVal ((c :: rest).takeWhile Char.isDigit) : Int)).toNat).getD 0
            = (claimByteCore (c :: rest)).getD 0
        by_cases hrs : (c :: rest).dropWhile Char.isDigit = []
        · have hcs_eq : (c :: rest).takeWhile Char.isDigit = c :: rest := by
            have h := List.takeWhile_append_dropWhile Char.isDigit (c :: rest)
            rw [hrs, List.append_nil] at h; exact h
          have hall : (c :: rest).all Char.isDigit = true := by
            rw [← hcs_eq]; exact List.all_takeWhile
          rw [hcs_eq, if_neg (not_not_intro hrs)]
          split
          · rename_i hv
            have hgt : ¬ digitsVal (c :: rest) ≤ 255 := by
              rcases hv with hv | hv <;> omega
            simp [claimByteCore, hgt]
          · rename_i hv
            push_neg at hv
            have hle : digitsVal (c :: rest) ≤ 255 := by
              have h2 := hv.2; omega
            simp [claimByteCore, hall, hle]
        · obtain ⟨e, es, he⟩ : ∃ e es, (c :: rest).dropWhile Char.isDigit = e :: es := by
            rcases h : (c :: rest).dropWhile Char.isDigit with _ | ⟨e, es⟩
            · exact absurd h hrs
            · exact ⟨e, es, rfl⟩
          have hed : Char.isDigit e = false := dropWhile_head_false _ _ _ _ he
          have hall : (c :: rest).all Char.isDigit = false := by
            have hsplit := List.takeWhile_append_dropWhile Char.isDigit (c :: rest)
            rw [he] at hsplit
            rw [← hsplit, List.all_append]
            simp [hed]
          rw [if_pos hrs]
          rw [show claimByteCore (c :: rest) = none from by simp [claimByteCore, hall]]

/-- C7: when connected, `catchMouse` returns 0 on a timeout or exception
(`none`) and on any reply that is not a full decimal integer in [0, 255],
and returns the parsed value as an unsigned byte otherwise. -/
theorem catchMouse_spec (resp : Option String) :
    catchMouse true resp = ((resp.map String.toList).bind claimByteCore).getD 0 := by
  rcases resp with _ | s
  · rfl
  · simpa [catchMouse, parseUint8Decimal] using parseUint8Core_eq_claim s.toList

/-! ## setMouseSerial escaping (makcu.cpp 54–90, 1234–1241)

C++ `std::string` is a byte string, so this part of the embedding works on
lists of byte values. -/

/-- Byte value of `HEX_DIGITS[n]` for `HEX_DIGITS = "0123456789ABCDEF"`. -/
def hexDigit (n : Nat) : Nat :=
  if n < 10 then 48 + n else 55 + n

/-- One byte of `escapeSingleQuotedCommandString`'s loop: the switch over the
unsigned char (`std::iscntrl` in the default C locale holds exactly for bytes
0–31 and 127). -/
def escapeByte (b : Nat) : List Nat :=
  if b = 92 then [92, 92]
  else if b = 39 then [92, 39]
  else if b = 10 then [92, 110]
  else if b = 13 then [92, 114]
  else if b = 9 then [92, 116]
  else if b < 32 ∨ b = 127 then
    [92, 120, hexDigit ((b >>> 4) &&& 15), hexDigit (b &&& 15)]
  else [b]

/-- `escapeSingleQuotedCommandString`: escape every input byte in order. -/
def escapeSingleQuotedCommandString (bytes : List Nat) : List Nat :=
  bytes.flatMap escapeByte

/-- Byte values of an ASCII string literal. -/
def strBytes (s : String) : List Nat :=
  s.toList.map Char.toNat

/-- The command built by `Device::setMouseSerial`:
`"km.serial('" + escaped + "')"`. -/
def setMouseSerialCommand (serial : List Nat) : List Nat :=
  strBytes "km.serial('" ++ escapeSingleQuotedCommandString serial ++ strBytes "')"

/-- Byte-level transport state for `setMouseSerial`: the byte strings handed
to `executeCommand` and the write outcome. -/
structure SerialTransport where
  sent : List (List Nat)
  ok : Bool

/-- `Device::setMouseSerial`: check connected, build the escaped command,
send it. -/
def setMouseSerial (connected : Bool) (st : SerialTransport)
    (serial : List Nat) : Bool × SerialTransport :=
  if !connected then (false, st)
  else (st.ok, { st with sent := st.sent ++ [setMouseSerialCommand serial] })

/-- C8: when connected, `setMouseSerial(s)` sends exactly
`km.serial('` ++ esc(s) ++ `')`, where esc maps byte by byte: backslash and
quote get a backslash, LF/CR/TAB become `\n`/`\r`/`\t`, any other control
byte (0–31, 127) becomes `\xHH` with HH its two uppercase hex digits, and
every remaining byte passes through unchanged. -/
theorem setMouseSerial_escapes :
    (∀ (st : SerialTransport) (s : List Nat),
      (setMouseSerial true st s).2.sent = st.sent ++ [setMouseSerialCommand s] ∧
      setMouseSerialCommand s =
        strBytes "km.serial('" ++ s.flatMap escapeByte ++ strBytes "')") ∧
    (∀ b : Nat, b < 256 →
      escapeByte b =
        if b = 92 then [92, 92]
        else if b = 39 then [92, 39]
        else if b = 10 then [92, 110]
        else if b = 13 then [92, 114]
        else if b = 9 then [92, 116]
        else if b < 32 ∨ b = 127 then
          [92, 120, hexDigit (b / 16), hexDigit (b % 16)]
        else [b]) := by
  constructor
  · intro st s
    exact ⟨rfl, rfl⟩
  · intro b hb
    have h4 : b >>> 4 = b / 16 := Nat.shiftRight_eq_div_pow b 4
    have hmask : ∀ x : Nat, x &&& 15 = x % 16 := fun x => by
      have h := Nat.and_pow_two_sub_one_eq_mod x 4
      norm_num at h
      exact h
    have h1 : (b >>> 4) &&& 15 = b / 16 := by
      rw [h4, hmask]
      exact Nat.mod_eq_of_lt (by omega)
    have h2 : b &&& 15 = b % 16 := hmask b
    unfold escapeByte
    rw [h1, h2]

/-- Witness for `setMouseSerial_escapes`: byte 1 escapes to `\x01`. -/
theorem setMouseSerial_escapes_witness :
    escapeByte 1 = [92, 120, hexDigit (1 / 16), hexDigit (1 % 16)] ∧
    escapeByte 1 = [92, 120, 48, 49] := by
  have h := setMouseSerial_escapes.2 1 (by norm_num)
  constructor
  · simpa using h
  · simpa [hexDigit] using h

/-! ## Batch builder (makcu.cpp 1359–1510) -/

/-- `Device::BatchCommandBuilder` as far as the claims need it: the device
liveness check's verdict and the accumulated command strings. -/
structure Batch where
  alive : Bool
  commands : List String

/-- `BatchCommandBuilder::drag`: when the device is alive and both cached
commands exist, append press, the move string, and release. -/
def batchDrag (bt : Batch) (b : MouseButton) (x y : Int) : Batch :=
  if !bt.alive then bt
  else
    match getPressCommand b, getReleaseCommand b with
    | some pressCmd, some releaseCmd =>
        { bt with commands := bt.commands ++
            [pressCmd,
             "km.move(" ++ toString x ++ "," ++ toString y ++ ")",
             releaseCmd] }
    | _, _ => bt

/-- The loop of `BatchCommandBuilder::execute`: send each accumulated
command in order, stopping with `false` at the first failed send. -/
def batchExecuteLoop (connected : Bool) : List String → Port → Bool × Port
  | [], p => (true, p)
  | c :: rest, p =>
      let r := executeCommand connected p c
      if !r.1 then (false, r.2)
      else batchExecuteLoop connected rest r.2

/-- `BatchCommandBuilder::execute`: device alive, connected, then the loop. -/
def batchExecute (bt : Batch) (connected : Bool) (p : Port) : Bool × Port :=
  if !bt.alive then (false, p)
  else if !connected then (false, p)
  else batchExecuteLoop connected bt.commands p

theorem batchExecuteLoop_all_ok :
    ∀ (cmds : List String) (p : Port),
      (∀ j, j < cmds.length → p.ok (p.n + j) = true) →
      batchExecuteLoop true cmds p =
        (true, Port.mk (p.sent ++ cmds) (p.n + cmds.length) p.ok) := by
  intro cmds
  induction cmds with
  | nil => intro p _; simp [batchExecuteLoop]
  | cons c rest ih =>
      intro p h
      have h0 : p.ok p.n = true := by simpa using h 0 (by simp)
      simp only [batchExecuteLoop, executeCommand, if_pos rfl, sendCommand, h0,
        Bool.not_true, Bool.false_eq_true, if_false]
      rw [ih]
      · simp [List.append_assoc]
        omega
      · intro j hj
        have := h (j + 1) (by simpa using Nat.succ_lt_succ hj)
        simpa [Nat.add_assoc, Nat.add_comm 1 j] using this

theorem batchExecuteLoop_first_fail :
    ∀ (cmds : List String) (i : Nat) (p : Port),
      i < cmds.length →
      p.ok (p.n + i) = false →
      (∀ j, j < i → p.ok (p.n + j) = true) →
      batchExecuteLoop true cmds p =
        (false, Port.mk (p.sent ++ cmds.take (i + 1)) (p.n + i + 1) p.ok) := by
  intro cmds
  induction cmds with
  | nil => intro i p hi _ _; exact absurd hi (by simp)
  | cons c rest ih =>
      intro i p hi hfail hprev
      cases i with
      | zero =>
          have h0 : p.ok p.n = false := by simpa using hfail
          simp [batchExecuteLoop, executeCommand, sendCommand, h0]
      | succ i =>
          have h0 : p.ok p.n = true := by simpa using hprev 0 (Nat.succ_pos i)
          simp only [batchExecuteLoop, executeCommand, if_pos rfl, sendCommand, h0,
            Bool.not_true, Bool.false_eq_true, if_false]
          rw [ih i]
          · simp [List.append_assoc]
            omega
          · simpa using hi
          · have := hfail
            simpa [Nat.add_assoc, Nat.add_comm 1 i] using this
          · intro j hj
            have := hprev (j + 1) (Nat.succ_lt_succ hj)
            simpa [Nat.add_assoc, Nat.add_comm 1 j] using this

/-- C9: `execute()` on a live, connected batch sends the accumulated commands
in insertion order; if every send succeeds it returns true having sent them
all; if the i-th send is the first to fail it returns false having sent
exactly the first i+1 commands — later commands are not sent and earlier ones
stay sent (no rollback); and `drag(B, x, y)` appends exactly press,
`km.move(x,y)`, release to the batch. -/
theorem batchExecute_spec :
    (∀ (cmds : List String) (p : Port),
      (∀ j, j < cmds.length → p.ok (p.n + j) = true) →
      (batchExecute (Batch.mk true cmds) true p).1 = true ∧
      ((batchExecute (Batch.mk true cmds) true p).2).sent = p.sent ++ cmds) ∧
    (∀ (cmds : List String) (i : Nat) (p : Port),
      i < cmds.length →
      p.ok (p.n + i) = false →
      (∀ j, j < i → p.ok (p.n + j) = true) →
      (batchExecute (Batch.mk true cmds) true p).1 = false ∧
      ((batchExecute (Batch.mk true cmds) true p).2).sent =
        p.sent ++ cmds.take (i + 1)) ∧
    (∀ (bt : Batch) (b : MouseButton) (pc rc : String) (x y : Int),
      bt.alive = true →
      getPressCommand b = some pc → getReleaseCommand b = some rc →
      (batchDrag bt b x y).commands =
        bt.commands ++
          [pc, "km.move(" ++ toString x ++ "," ++ toString y ++ ")", rc]) := by
  refine ⟨?_, ?_, ?_⟩
  · intro cmds p h
    simp only [batchExecute, Bool.not_true, Bool.false_eq_true, if_false]
    rw [batchExecuteLoop_all_ok cmds p h]
    exact ⟨rfl, rfl⟩
  · intro cmds i p hi hfail hprev
    simp only [batchExecute, Bool.not_true, Bool.false_eq_true, if_false]
    rw [batchExecuteLoop_first_fail cmds i p hi hfail hprev]
    exact ⟨rfl, rfl⟩
  · intro bt b pc rc x y halive hp hr
    simp [batchDrag, halive, hp, hr]

/-- Witness for `batchExecute_spec`: a two-command batch whose second send
fails sends both commands and returns false; a drag on LEFT appends its
three entries. -/
theorem batchExecute_spec_witness :
    (batchExecute (Batch.mk true ["km.left(1)", "km.left(0)"]) true
      (Port.mk [] 0 fun i => decide (i = 0))).1 = false ∧
    ((batchExecute (Batch.mk true ["km.left(1)", "km.left(0)"]) true
      (Port.mk [] 0 fun i => decide (i = 0))).2).sent =
      [] ++ ["km.left(1)", "km.left(0)"].take 2 ∧
    (batchDrag (Batch.mk true []) MouseButton.left 1 2).commands =
      [] ++ ["km.left(1)", "km.move(" ++ toString (1 : Int) ++ "," ++
        toString (2 : Int) ++ ")", "km.left(0)"] := by
  have h := batchExecute_spec.2.1 ["km.left(1)", "km.left(0)"] 1
    (Port.mk [] 0 fun i => decide (i = 0)) (by norm_num) (by norm_num)
    (by intro j hj; interval_cases j; norm_num)
  have hd := batchExecute_spec.2.2 (Batch.mk true []) MouseButton.left
    "km.left(1)" "km.left(0)" 1 2 rfl rfl rfl
  exact ⟨h.1, h.2, hd⟩

/-! ## Button events (makcu.cpp 313–346) -/

/-- `Device::Impl::handleButtonEvent`: update the 8-bit atomic mask with
`fetch_or`/`fetch_and` of the button's bit, then — only for button indices
below 5 — invoke the user callback if one is set, swallowing any exception
it throws (`callbackThrows` has no effect on the returned mask). Returns the
new mask and whether the user callback was invoked. -/
def handleButtonEvent (mask : Nat) (button : Nat) (pressed : Bool)
    (callbackSet : Bool) (callbackThrows : Bool) : Nat × Bool :=
  let bit := (1 <<< button) % 256
  let newMask := if pressed then mask ||| bit else mask &&& (255 ^^^ bit)
  if button ≥ 5 then (newMask, false)
  else (newMask, callbackSet)

theorem testBit_and_mask8_self (x k : Nat) (hk : k < 8) :
    (x &&& (255 ^^^ (1 <<< k))).testBit k = false := by
  rw [Nat.testBit_and, Nat.testBit_xor, Nat.one_shiftLeft]
  rw [show (255 : Nat) = 2 ^ 8 - 1 by norm_num]
  rw [Nat.testBit_two_pow_sub_one, Nat.testBit_two_pow_self]
  simp [hk]

theorem testBit_and_mask8_other (x k j : Nat) (hj : j < 8) (h : j ≠ k) :
    (x &&& (255 ^^^ (1 <<< k))).testBit j = x.testBit j := by
  rw [Nat.testBit_and, Nat.testBit_xor, Nat.one_shiftLeft]
  rw [show (255 : Nat) = 2 ^ 8 - 1 by norm_num]
  rw [Nat.testBit_two_pow_sub_one, Nat.testBit_two_pow_of_ne (Ne.symm h)]
  simp [hj]

/-- C10: for a button index below 8, `handleButtonEvent` sets bit `button`
of the mask to `pressed` and leaves the other mask bits unchanged; the user
callback is invoked exactly when the index is below 5 and a callback is set
(so indices 5–7 update the mask but never reach the callback); and a
callback that throws does not change the resulting mask. -/
theorem handleButtonEvent_spec (mask button : Nat) (pressed cbSet cbThrows : Bool)
    (hb : button < 8) :
    (handleButtonEvent mask button pressed cbSet cbThrows).1.testBit button = pressed ∧
    (∀ j, j < 8 → j ≠ button →
      (handleButtonEvent mask button pressed cbSet cbThrows).1.testBit j =
        mask.testBit j) ∧
    (handleButtonEvent mask button pressed cbSet cbThrows).2 =
      (decide (button < 5) && cbSet) ∧
    (handleButtonEvent mask button pressed cbSet true).1 =
      (handleButtonEvent mask button pressed cbSet false).1 := by
  have hbit : (1 <<< button) % 256 = 1 <<< button := by
    apply Nat.mod_eq_of_lt
    rw [Nat.one_shiftLeft]
    calc 2 ^ button < 2 ^ 8 := Nat.pow_lt_pow_right (by norm_num) hb
      _ ≤ 256 := by norm_num
  have hmask1 : (handleButtonEvent mask button pressed cbSet cbThrows).1 =
      (if pressed then mask ||| (1 <<< button)
       else mask &&& (255 ^^^ (1 <<< button))) := by
    simp only [handleButtonEvent, hbit]
    split <;> rfl
  refine ⟨?_, ?_, ?_, ?_⟩
  · rw [hmask1]
    cases pressed with
    | true => simp [testBit_or_shiftLeft_self]
    | false => simp [testBit_and_mask8_self _ _ hb]
  · intro j hj hne
    rw [hmask1]
    cases pressed with
    | true => simp [testBit_or_shiftLeft_other _ _ _ hne]
    | false => simp [testBit_and_mask8_other _ _ _ hj hne]
  · simp only [handleButtonEvent]
    by_cases h5 : button ≥ 5
    · rw [if_pos h5]
      simp [show ¬ button < 5 from by omega]
    · rw [if_neg h5]
      simp [show button < 5 from by omega]
  · rfl

/-- Witness for `handleButtonEvent_spec`: a press of button 6 sets bit 6,
leaves bit 1 alone and invokes no callback. -/
theorem handleButtonEvent_spec_witness :
    (handleButtonEvent 2 6 true true true).1.testBit 6 = true ∧
    (handleButtonEvent 2 6 true true true).1.testBit 1 = (2 : Nat).testBit 1 ∧
    (handleButtonEvent 2 6 true true true).2 = false := by
  have h := handleButtonEvent_spec 2 6 true true true (by norm_num)
  refine ⟨h.1, h.2.1 1 (by norm_num) (by norm_num), ?_⟩
  simpa using h.2.2.1

end Makcu
